import Mathlib

/-!
Verification development for the bevy_embedded crate.

The crate bridges a host mobile application (iOS / Android) and a Bevy app:
touch events flow from FFI entry points into an in-engine queue, a plugin
system drains that queue once per frame, a byte channel carries binary
messages both ways, and a single-slot mailbox carries the last error string.

Shallow embedding conventions:
- 32-bit floats (f32 / jfloat) never take part in arithmetic in the code the
  claims are about, they are only carried through, so each one is represented
  by its 32-bit pattern as a Nat. Likewise a u64 / jlong touch id is its
  64-bit pattern and a jint is its 32-bit pattern.
- Raw pointers become Option Nat: none is the null pointer.
- A Rust panic becomes an Except.error carrying a constructor that names the
  panic site (the message text is not load bearing for any claim).
- The single-slot LAST_ERROR mutex becomes an Option String threaded through
  the functions explicitly; locking always succeeds in this single-thread
  model, matching the code path where the lock is not poisoned.
-/

/-- Touch phase from src/input.rs (repr u8 with discriminants 0..3). -/
inductive TouchPhase
  | Started
  | Moved
  | Ended
  | Cancelled
  deriving DecidableEq, Repr

/-- TouchPhase.from_u8 from src/input.rs: 0, 1, 2, 3 map to the four phases
in order and every other byte maps to none. -/
def TouchPhase.from_u8 (value : Nat) : Option TouchPhase :=
  match value with
  | 0 => some TouchPhase.Started
  | 1 => some TouchPhase.Moved
  | 2 => some TouchPhase.Ended
  | 3 => some TouchPhase.Cancelled
  | _ => none

/-- EmbeddedTouchEvent from src/input.rs. The position holds the two f32
bit patterns (x, y); the id holds the 64-bit identifier. -/
structure EmbeddedTouchEvent where
  phase : TouchPhase
  position : Nat × Nat
  id : Nat
  deriving DecidableEq, Repr

/-- EmbeddedInputEvents resource from src/input.rs: the queue of pending
touch events. -/
structure EmbeddedInputEvents where
  touch_events : List EmbeddedTouchEvent
  deriving DecidableEq, Repr

/-- EmbeddedInputEvents.add_touch_event from src/input.rs: push to the back
of the queue. -/
def EmbeddedInputEvents.add_touch_event (s : EmbeddedInputEvents)
    (event : EmbeddedTouchEvent) : EmbeddedInputEvents :=
  { touch_events := s.touch_events ++ [event] }

/-- EmbeddedInputEvents.clear from src/input.rs: empty the queue. -/
def EmbeddedInputEvents.clear (_s : EmbeddedInputEvents) : EmbeddedInputEvents :=
  { touch_events := [] }

/-- bevy_embedded_ios_touch_event from src/ios.rs. The first argument models
the null check on the app pointer; phase is the u8 argument; x, y are the f32
bit patterns; id is the u64. A recognised phase code appends exactly one
event to the queue, anything else leaves the queue untouched. -/
def bevy_embedded_ios_touch_event (appNull : Bool) (phase : Nat) (x y : Nat)
    (id : Nat) (events : EmbeddedInputEvents) : EmbeddedInputEvents :=
  if appNull then events
  else
    match TouchPhase.from_u8 phase with
    | some touch_phase =>
        events.add_touch_event { phase := touch_phase, position := (x, y), id := id }
    | none => events

/-- Java_com_example_bevyembedded_BevyNative_nativeTouchEvent from
src/android.rs. The phase argument is a jint (32-bit pattern) and the code
casts it with phase as u8, which keeps only the low byte: the model writes
that cast as phase % 256. The jlong id is cast with id as u64, identity on
the 64-bit pattern, and the jfloat coordinates are cast with x as f32,
identity on the 32-bit patterns. -/
def Java_com_example_bevyembedded_BevyNative_nativeTouchEvent (appNull : Bool)
    (phase : Nat) (x y : Nat) (id : Nat) (events : EmbeddedInputEvents) :
    EmbeddedInputEvents :=
  if appNull then events
  else
    match TouchPhase.from_u8 (phase % 256) with
    | some touch_phase =>
        events.add_touch_event { phase := touch_phase, position := (x, y), id := id }
    | none => events

/-- Touch phase vocabulary of the engine (bevy::input::touch::TouchPhase),
note the single-l spelling of Canceled. -/
inductive BevyTouchPhase
  | Started
  | Moved
  | Ended
  | Canceled
  deriving DecidableEq, Repr

/-- TouchInput event of the engine as written by process_embedded_input in
src/plugin.rs. Window entities are identified by a Nat. The force field is
always none in this crate, so its payload type is Unit. -/
structure TouchInput where
  phase : BevyTouchPhase
  position : Nat × Nat
  window : Nat
  force : Option Unit
  id : Nat
  deriving DecidableEq, Repr

/-- The phase translation performed inside process_embedded_input in
src/plugin.rs. -/
def toBevyPhase : TouchPhase → BevyTouchPhase
  | TouchPhase.Started => BevyTouchPhase.Started
  | TouchPhase.Moved => BevyTouchPhase.Moved
  | TouchPhase.Ended => BevyTouchPhase.Ended
  | TouchPhase.Cancelled => BevyTouchPhase.Canceled

/-- process_embedded_input from src/plugin.rs. Input: the list of window
entities the query returns (windows.iter().next() takes its head) and the
pending queue. Output: the TouchInput events written this run and the state
of the queue afterwards. When a window exists the loop drains the queue and
writes one event per entry in order; the trailing clear leaves the queue
empty in both branches. -/
def process_embedded_input (windows : List Nat)
    (input_events : EmbeddedInputEvents) :
    List TouchInput × EmbeddedInputEvents :=
  match windows.head? with
  | some window =>
      (input_events.touch_events.map fun event =>
        { phase := toBevyPhase event.phase
          position := event.position
          window := window
          force := none
          id := event.id },
       EmbeddedInputEvents.clear { touch_events := [] })
  | none => ([], EmbeddedInputEvents.clear input_events)

/-- Names the two panic sites of EmbeddedPlugin.finish in src/plugin.rs. -/
inductive PanicMsg
  | zeroWindows
  | tooManyWindows (count : Nat)
  deriving DecidableEq, Repr

/-- EmbeddedPlugin.finish from src/plugin.rs: count the window entities,
panic when the count is 0, panic when it exceeds 1, otherwise return with
the app untouched. -/
def EmbeddedPlugin.finish (windows : Nat) : Except PanicMsg Unit :=
  if windows = 0 then Except.error PanicMsg.zeroWindows
  else if windows > 1 then Except.error (PanicMsg.tooManyWindows windows)
  else Except.ok ()

/-- HostChannel from src/channel.rs, modelled by its pending-message queue:
a crossbeam unbounded channel is a FIFO queue of byte messages, oldest at
the head. Bytes are Nats below 256. -/
abbrev HostChannel := List (List Nat)

/-- HostChannel.send from src/channel.rs: enqueue at the back. The result of
sender.send is discarded in the code; with both ends alive it always
succeeds. -/
def HostChannel.send (ch : HostChannel) (data : List Nat) : HostChannel :=
  ch ++ [data]

/-- HostChannel.receive from src/channel.rs: try_recv pops the oldest
pending message without blocking, or yields none when the queue is empty. -/
def HostChannel.receive (ch : HostChannel) : Option (List Nat) × HostChannel :=
  match ch with
  | [] => (none, [])
  | message :: rest => (some message, rest)

/-- A sequence of HostChannel.send calls, first message first. -/
def sendAll (ch : HostChannel) (messages : List (List Nat)) : HostChannel :=
  messages.foldl HostChannel.send ch

/-- n successive HostChannel.receive calls: the list of their results in
call order, and the channel state afterwards. -/
def receiveN : Nat → HostChannel → List (Option (List Nat)) × HostChannel
  | 0, ch => ([], ch)
  | Nat.succ n, ch =>
      let r := HostChannel.receive ch
      let rest := receiveN n r.2
      (r.1 :: rest.1, rest.2)

/-- store_error from src/app_trait.rs: overwrite the single slot. -/
def store_error (_mailbox : Option String) (message : String) : Option String :=
  some message

/-- take_last_error from src/app_trait.rs: return the slot content and clear
the slot. First component is the returned value, second is the slot after
the call. -/
def take_last_error (mailbox : Option String) : Option String × Option String :=
  (mailbox, none)

/-- True when the string contains a NUL byte, the condition under which
CString.new in bevy_embedded_get_last_error fails. -/
def hasInteriorNul (s : String) : Bool :=
  s.toList.any fun c => c.toNat = 0

/-- bevy_embedded_get_last_error from the export_embedded_app macro in
src/app_trait.rs: take the slot (clearing it); when a message was stored and
converts to a C string, return it, otherwise return the null pointer (none).
First component is the returned string, second the slot afterwards. -/
def bevy_embedded_get_last_error (mailbox : Option String) :
    Option String × Option String :=
  match take_last_error mailbox with
  | (some error, mb) =>
      if hasInteriorNul error then (none, mb) else (some error, mb)
  | (none, mb) => (none, mb)

/-- AppExit of the engine as observed by bevy_embedded_update: Error carries
the NonZeroU8 code as a Nat. -/
inductive AppExit
  | Success
  | Error (code : Nat)
  deriving DecidableEq, Repr

/-- bevy_embedded_update from the export_embedded_app macro in
src/app_trait.rs. Arguments: whether the app pointer is null, the mailbox
state after app.update() ran (the per-frame error handler stores into it
during that call), and app.should_exit(). Result: the returned u8 code and
the mailbox state after the call. Mirrors the code: on a null pointer store
and return 1; on an error exit, take_last_error and store a generic message
only when the take came back empty, then return the exit code; otherwise
return 1 when take_last_error yields a message and 0 when it does not. -/
def bevy_embedded_update (appNull : Bool) (mailbox : Option String)
    (exit : Option AppExit) : Nat × Option String :=
  if appNull then (1, store_error mailbox "Null app pointer")
  else
    match exit with
    | some (AppExit.Error code) =>
        let t := take_last_error mailbox
        if t.1 = none then (code, store_error t.2 "Bevy app exited with an error")
        else (code, t.2)
    | _ =>
        let t := take_last_error mailbox
        if t.1.isSome then (1, t.2) else (0, t.2)

/-- EmbeddedSurfaceInfo from src/ios.rs: the ui_view pointer (none = null)
plus physical size and the f32 scale factor bit pattern. -/
structure EmbeddedSurfaceInfo where
  ui_view : Option Nat
  width : Nat
  height : Nat
  scale_factor : Nat
  deriving DecidableEq, Repr

/-- AndroidSurfaceInfo from src/android.rs. -/
structure AndroidSurfaceInfo where
  native_window : Option Nat
  width : Nat
  height : Nat
  scale_factor : Nat
  deriving DecidableEq, Repr

/-- create_window_from_host from src/ios.rs, abstracted to its effect on the
window-entity count: the surface the host filled in, and the count before
the call. A null ui_view returns early without spawning; otherwise exactly
one window entity is spawned. -/
def Ios.create_window_from_host (surface_info : EmbeddedSurfaceInfo)
    (windows : Nat) : Nat :=
  match surface_info.ui_view with
  | none => windows
  | some _ => windows + 1

/-- create_window_from_host from src/android.rs: the stored CURRENT_SURFACE
(none when no surface was set), and the window count before the call. An
absent surface or a null native_window returns early without spawning;
otherwise exactly one window entity is spawned. -/
def Android.create_window_from_host (stored : Option AndroidSurfaceInfo)
    (windows : Nat) : Nat :=
  match stored with
  | none => windows
  | some surface_info =>
      match surface_info.native_window with
      | none => windows
      | some _ => windows + 1

/-- bevy_embedded_ios_receive_message from src/ios.rs. Arguments: whether
the app pointer is null, whether the buffer pointer is null, the buffer
length, and the channel state. Result: the returned byte count, the bytes
written into the buffer, and the channel afterwards. A null pointer or a
zero-length buffer returns 0 untouched; a pending message is dequeued whole
and its first min(len, buffer_len) bytes are copied out, the rest of the
message is dropped. -/
def bevy_embedded_ios_receive_message (appNull bufferNull : Bool)
    (buffer_len : Nat) (ch : HostChannel) : Nat × List Nat × HostChannel :=
  if appNull || bufferNull || buffer_len = 0 then (0, [], ch)
  else
    match HostChannel.receive ch with
    | (some message, ch2) =>
        let copy_len := min message.length buffer_len
        (copy_len, message.take copy_len, ch2)
    | (none, ch2) => (0, [], ch2)

/-- f32 to_le_bytes on the bit pattern: the four bytes, least significant
first, as produced on the sending side of the 16-byte colour message. -/
def f32_to_le_bytes (bits : Nat) : List Nat :=
  [bits % 256, bits / 256 % 256, bits / 256 / 256 % 256, bits / 256 / 256 / 256 % 256]

/-- f32 from_le_bytes on bit patterns, as used in handle_messages in
examples/mobile/src/lib.rs. -/
def f32_from_le_bytes (b0 b1 b2 b3 : Nat) : Nat :=
  b0 + 256 * b1 + 256 * 256 * b2 + 256 * 256 * 256 * b3

/-- The 16-byte colour message the host sends: four f32 patterns, each in
little-endian byte order. -/
def encode_color (r g b a : Nat) : List Nat :=
  f32_to_le_bytes r ++ f32_to_le_bytes g ++ f32_to_le_bytes b ++ f32_to_le_bytes a

/-- The receiving side from handle_messages in examples/mobile/src/lib.rs:
a message of length exactly 16 decodes to the four f32 patterns read with
from_le_bytes at offsets 0, 4, 8, 12; any other length is rejected. -/
def decode_color (message : List Nat) : Option (Nat × Nat × Nat × Nat) :=
  match message with
  | [b0, b1, b2, b3, b4, b5, b6, b7, b8, b9, b10, b11, b12, b13, b14, b15] =>
      some (f32_from_le_bytes b0 b1 b2 b3, f32_from_le_bytes b4 b5 b6 b7,
            f32_from_le_bytes b8 b9 b10 b11, f32_from_le_bytes b12 b13 b14 b15)
  | _ => none

/-- C1: the claim says that an error captured into the mailbox during
bevy_embedded_update makes update return nonzero and a following
bevy_embedded_get_last_error return that message. The code does return 1,
but the presence test it uses is take_last_error, which clears the slot and
drops the value, so the following get_last_error returns the null pointer:
the captured message is lost. Evaluated here at the failing input (mailbox
holding an error after app.update, no AppExit). -/
theorem update_error_lost :
    bevy_embedded_update false (some "frame error") none = (1, none) ∧
    bevy_embedded_get_last_error
        (bevy_embedded_update false (some "frame error") none).2 = (none, none) :=
  ⟨rfl, rfl⟩

/-- C2: EmbeddedPlugin.finish returns normally exactly when the window count
is one; a count of zero hits the zero-window panic and a count of two or
more hits the multiple-window panic. -/
theorem finish_window_invariant (n : Nat) :
    (EmbeddedPlugin.finish n = Except.ok () ↔ n = 1) ∧
    (n = 0 → EmbeddedPlugin.finish n = Except.error PanicMsg.zeroWindows) ∧
    (2 ≤ n → EmbeddedPlugin.finish n = Except.error (PanicMsg.tooManyWindows n)) := by
  unfold EmbeddedPlugin.finish
  refine ⟨?_, ?_, ?_⟩
  · constructor
    · intro h
      by_contra hn
      rcases Nat.lt_or_ge n 1 with h1 | h1
      · interval_cases n
        simp_all
      · have h2 : n > 1 := by omega
        simp [Nat.ne_of_gt (by omega : 0 < n), h2] at h
    · intro h
      subst h
      rfl
  · intro h
    subst h
    rfl
  · intro h
    have h0 : n ≠ 0 := by omega
    have h1 : n > 1 := by omega
    simp [h0, h1]

/-- C2 witness: the three concrete scenarios 0, 1, 2 windows. -/
theorem finish_window_invariant_witness :
    EmbeddedPlugin.finish 0 = Except.error PanicMsg.zeroWindows ∧
    EmbeddedPlugin.finish 1 = Except.ok () ∧
    EmbeddedPlugin.finish 2 = Except.error (PanicMsg.tooManyWindows 2) :=
  ⟨(finish_window_invariant 0).2.1 rfl,
   (finish_window_invariant 1).1.mpr rfl,
   (finish_window_invariant 2).2.2 (by decide)⟩

/-- C4: with at least one window entity present, one run of
process_embedded_input emits exactly one TouchInput per queued touch, in
queue order, each naming the first window entity, carrying position and id
unchanged, with Started, Moved, Ended, Cancelled mapped to Started, Moved,
Ended, Canceled; afterwards the queue is empty. -/
theorem process_input_forwards_in_order (w : Nat) (ws : List Nat)
    (q : List EmbeddedTouchEvent) :
    process_embedded_input (w :: ws) { touch_events := q } =
      (q.map fun event =>
        { phase := toBevyPhase event.phase
          position := event.position
          window := w
          force := none
          id := event.id },
       { touch_events := [] }) ∧
    toBevyPhase TouchPhase.Started = BevyTouchPhase.Started ∧
    toBevyPhase TouchPhase.Moved = BevyTouchPhase.Moved ∧
    toBevyPhase TouchPhase.Ended = BevyTouchPhase.Ended ∧
    toBevyPhase TouchPhase.Cancelled = BevyTouchPhase.Canceled :=
  ⟨rfl, rfl, rfl, rfl, rfl⟩

/-- C9: with zero window entities, one run of process_embedded_input emits
no TouchInput event and still clears the queue, so pending touches are
discarded rather than retained for a later frame. -/
theorem process_input_no_window_discards (q : List EmbeddedTouchEvent) :
    process_embedded_input [] { touch_events := q } =
      ([], { touch_events := [] }) := rfl

/-- C7: a null or absent surface handle makes create_window_from_host spawn
nothing on either platform (window count unchanged for every starting
count), and with no other window the Finish check then takes the fatal
zero-window path. -/
theorem null_surface_no_window_fatal (w h s n : Nat) :
    Ios.create_window_from_host ⟨none, w, h, s⟩ n = n ∧
    Android.create_window_from_host none n = n ∧
    Android.create_window_from_host (some ⟨none, w, h, s⟩) n = n ∧
    EmbeddedPlugin.finish (Ios.create_window_from_host ⟨none, w, h, s⟩ 0) =
      Except.error PanicMsg.zeroWindows ∧
    EmbeddedPlugin.finish (Android.create_window_from_host none 0) =
      Except.error PanicMsg.zeroWindows ∧
    EmbeddedPlugin.finish
        (Android.create_window_from_host (some ⟨none, w, h, s⟩) 0) =
      Except.error PanicMsg.zeroWindows :=
  ⟨rfl, rfl, rfl, rfl, rfl, rfl⟩

/-- C3 counterexample: the Android entry point takes a jint and casts it to
u8 by truncation, so phase code 256 behaves like 0: it enqueues a Started
event even though 256 is not one of the four valid codes (from_u8 rejects
it). The claim as stated says every code other than 0..3 enqueues nothing. -/
theorem nativeTouchEvent_truncation_counterexample :
    Java_com_example_bevyembedded_BevyNative_nativeTouchEvent false 256 5 6 7
        ⟨[]⟩ = ⟨[⟨TouchPhase.Started, (5, 6), 7⟩]⟩ ∧
    TouchPhase.from_u8 256 = none :=
  ⟨rfl, rfl⟩

/-- C3 amended: on the iOS entry point (u8 argument) codes 0, 1, 2, 3
enqueue exactly one event with phase Started, Moved, Ended, Cancelled and
the position and id unchanged, and every other code enqueues nothing; the
Android entry point (jint argument) first truncates the code to its low
byte and then behaves exactly like the iOS path on that byte. -/
theorem touch_event_phase_mapping (x y id : Nat) (q : EmbeddedInputEvents) :
    bevy_embedded_ios_touch_event false 0 x y id q =
      q.add_touch_event ⟨TouchPhase.Started, (x, y), id⟩ ∧
    bevy_embedded_ios_touch_event false 1 x y id q =
      q.add_touch_event ⟨TouchPhase.Moved, (x, y), id⟩ ∧
    bevy_embedded_ios_touch_event false 2 x y id q =
      q.add_touch_event ⟨TouchPhase.Ended, (x, y), id⟩ ∧
    bevy_embedded_ios_touch_event false 3 x y id q =
      q.add_touch_event ⟨TouchPhase.Cancelled, (x, y), id⟩ ∧
    (∀ phase, 4 ≤ phase →
      bevy_embedded_ios_touch_event false phase x y id q = q) ∧
    (∀ phase,
      Java_com_example_bevyembedded_BevyNative_nativeTouchEvent false phase x y id q =
        bevy_embedded_ios_touch_event false (phase % 256) x y id q) := by
  refine ⟨rfl, rfl, rfl, rfl, ?_, fun phase => rfl⟩
  intro phase hp
  obtain _ | _ | _ | _ | p := phase
  · omega
  · omega
  · omega
  · omega
  · rfl

/-- C3 witness: a dropped out-of-range iOS code and a truncated Android
code, both at concrete inputs. -/
theorem touch_event_phase_mapping_witness :
    bevy_embedded_ios_touch_event false 7 1 2 3 ⟨[]⟩ = ⟨[]⟩ ∧
    Java_com_example_bevyembedded_BevyNative_nativeTouchEvent false 263 1 2 3 ⟨[]⟩ =
      bevy_embedded_ios_touch_event false (263 % 256) 1 2 3 ⟨[]⟩ :=
  ⟨(touch_event_phase_mapping 1 2 3 ⟨[]⟩).2.2.2.2.1 7 (by decide),
   (touch_event_phase_mapping 1 2 3 ⟨[]⟩).2.2.2.2.2 263⟩

/-- Sending a list of messages appends it, in order, to the pending queue. -/
theorem sendAll_eq_append (messages : List (List Nat)) :
    ∀ ch : HostChannel, sendAll ch messages = ch ++ messages := by
  induction messages with
  | nil => intro ch; simp [sendAll]
  | cons m ms ih =>
      intro ch
      show sendAll (HostChannel.send ch m) ms = ch ++ m :: ms
      rw [ih, HostChannel.send]
      simp

/-- Every receive on a drained channel yields none. -/
theorem receiveN_drained (k : Nat) :
    receiveN k [] = (List.replicate k none, []) := by
  induction k with
  | zero => rfl
  | succ n ih => simp [receiveN, HostChannel.receive, ih, List.replicate]

/-- C5: send the messages into the channel, then call receive length + k
times: the first calls return the messages one each, oldest first, and every
call after the queue is exhausted returns none without blocking. -/
theorem channel_fifo_order (messages : List (List Nat)) (k : Nat) :
    receiveN (messages.length + k) (sendAll [] messages) =
      (messages.map some ++ List.replicate k none, []) := by
  rw [sendAll_eq_append, List.nil_append]
  induction messages with
  | nil => simpa using receiveN_drained k
  | cons m ms ih =>
      have hlen : (m :: ms).length + k = (ms.length + k) + 1 := by
        simp [List.length]
        omega
      rw [hlen]
      simp [receiveN, HostChannel.receive, ih]

/-- C6 counterexample: for a stored message containing a NUL byte the first
call to bevy_embedded_get_last_error returns the null pointer, not the
message, because CString.new rejects interior NUL bytes; the slot is still
cleared. The claim as stated quantifies over every stored message. -/
theorem get_last_error_nul_counterexample :
    bevy_embedded_get_last_error (some "\x00") = (none, none) ∧
    (bevy_embedded_get_last_error (some "\x00")).1 ≠ some "\x00" := by
  have e : bevy_embedded_get_last_error (some "\x00") = (none, none) := rfl
  refine ⟨e, ?_⟩
  rw [e]
  exact fun h => Option.noConfusion h

/-- C6 amended: for every stored error message free of NUL bytes, the first
call to bevy_embedded_get_last_error returns that message and clears the
slot, and a second immediate call with no intervening store returns none;
a message containing a NUL byte is also cleared but none is returned in its
place. -/
theorem get_last_error_mailbox (msg : String)
    (h : hasInteriorNul msg = false) :
    bevy_embedded_get_last_error (some msg) = (some msg, none) ∧
    bevy_embedded_get_last_error none = (none, none) := by
  refine ⟨?_, rfl⟩
  simp [bevy_embedded_get_last_error, take_last_error, h]

/-- C6 witness: a concrete NUL-free message read once and then gone. -/
theorem get_last_error_mailbox_witness :
    bevy_embedded_get_last_error (some "boom") = (some "boom", none) ∧
    bevy_embedded_get_last_error none = (none, none) :=
  get_last_error_mailbox "boom" (by decide)

/-- Splitting a 32-bit pattern into its four little-endian bytes and
reassembling them gives the pattern back. -/
theorem f32_le_roundtrip (n : Nat) (h : n < 2 ^ 32) :
    f32_from_le_bytes (n % 256) (n / 256 % 256) (n / 256 / 256 % 256)
      (n / 256 / 256 / 256 % 256) = n := by
  unfold f32_from_le_bytes
  omega

/-- C8: encode four f32 bit patterns as 16 little-endian bytes, pass the
message through the channel, decode at the receiver: the channel delivers
the bytes verbatim and the decoder returns exactly the four patterns that
were encoded. -/
theorem color_roundtrip_through_channel (r g b a : Nat)
    (hr : r < 2 ^ 32) (hg : g < 2 ^ 32) (hb : b < 2 ^ 32) (ha : a < 2 ^ 32) :
    HostChannel.receive (HostChannel.send [] (encode_color r g b a)) =
      (some (encode_color r g b a), []) ∧
    decode_color (encode_color r g b a) = some (r, g, b, a) := by
  constructor
  · rfl
  · have e : decode_color (encode_color r g b a) =
        some (f32_from_le_bytes (r % 256) (r / 256 % 256) (r / 256 / 256 % 256)
                (r / 256 / 256 / 256 % 256),
              f32_from_le_bytes (g % 256) (g / 256 % 256) (g / 256 / 256 % 256)
                (g / 256 / 256 / 256 % 256),
              f32_from_le_bytes (b % 256) (b / 256 % 256) (b / 256 / 256 % 256)
                (b / 256 / 256 / 256 % 256),
              f32_from_le_bytes (a % 256) (a / 256 % 256) (a / 256 / 256 % 256)
                (a / 256 / 256 / 256 % 256)) := rfl
    rw [e, f32_le_roundtrip r hr, f32_le_roundtrip g hg, f32_le_roundtrip b hb,
      f32_le_roundtrip a ha]

/-- C8 witness: the claim example, the bit patterns of (1.0, 0.0, 0.0, 1.0),
with 1.0f32 having pattern 1065353216 (0x3F800000). -/
theorem color_roundtrip_through_channel_witness :
    HostChannel.receive
        (HostChannel.send [] (encode_color 1065353216 0 0 1065353216)) =
      (some (encode_color 1065353216 0 0 1065353216), []) ∧
    decode_color (encode_color 1065353216 0 0 1065353216) =
      some (1065353216, 0, 0, 1065353216) :=
  color_roundtrip_through_channel 1065353216 0 0 1065353216
    (by decide) (by decide) (by decide) (by decide)

/-- C10: with a valid buffer of positive length and a pending message of n
bytes, bevy_embedded_ios_receive_message dequeues the whole message, copies
exactly min n buffer_len of its bytes and returns that count, losing the
bytes beyond the buffer; and the return value 0 cannot distinguish an empty
pending message, an empty queue, a null buffer, a zero-length buffer, or a
null app pointer. -/
theorem receive_message_truncation_spec (msg : List Nat) (rest : HostChannel)
    (len : Nat) (ch : HostChannel) :
    (0 < len →
      bevy_embedded_ios_receive_message false false len (msg :: rest) =
        (min msg.length len, msg.take (min msg.length len), rest)) ∧
    bevy_embedded_ios_receive_message false false len [] = (0, [], []) ∧
    bevy_embedded_ios_receive_message false true len ch = (0, [], ch) ∧
    bevy_embedded_ios_receive_message false false 0 ch = (0, [], ch) ∧
    bevy_embedded_ios_receive_message true false len ch = (0, [], ch) := by
  refine ⟨?_, ?_, rfl, rfl, rfl⟩
  · intro hlen
    have h0 : len ≠ 0 := by omega
    simp [bevy_embedded_ios_receive_message, HostChannel.receive, h0]
  · by_cases h : len = 0 <;>
      simp [bevy_embedded_ios_receive_message, HostChannel.receive, h]

/-- C10 witness: a 3-byte pending message against a 2-byte buffer: return
value 2, the first two bytes land in the buffer, the third byte is gone,
and the next message is at the head of the queue. -/
theorem receive_message_truncation_spec_witness :
    bevy_embedded_ios_receive_message false false 2 ([9, 8, 7] :: [[1]]) =
      (2, [9, 8], [[1]]) :=
  (receive_message_truncation_spec [9, 8, 7] [[1]] 2 []).1 (by decide)
